import Mathlib

/-!
Shallow embedding of the scatter/gather map-reduce "compute pi" pipelines from
the `mapreduce-pipeline` notebooks (lightweight-components variant and
reusable-components variant).

Modelling conventions: pure Python functions become Lean functions; Python
floats are modelled as rationals (every numeric literal the development
evaluates is exactly representable); a Python exception becomes an `Except`
error; the MinIO object store and the `float(...)` text parser, which are
external collaborators, are abstract function parameters; the pseudo-random
draws of `random.random()` are passed to `sample_func` explicitly.
-/

/-- Error taxonomy of the spec, attached to the failure points of the code.
`emptyInput` models the `ZeroDivisionError` raised by
`sum(numbers) / len(numbers)` when the list is empty; `aggregationFailure key`
models the exception (fetch error or `float` parse error) that aborts
`collect_results_as_list` while it processes `key`. -/
inductive PipelineError where
  | emptyInput : PipelineError
  | aggregationFailure : String → PipelineError
deriving DecidableEq

/-- `create_seeds_func(n_samples)` from both notebooks:
`constant = 10; return [constant + i for i in range(n_samples)]`.
Python's `range` is empty for a non-positive argument, which `Int.toNat`
reproduces. -/
def create_seeds_func (n_samples : Int) : List Int :=
  (List.range n_samples.toNat).map (fun i : Nat => 10 + (i : Int))

/-- `average_func(numbers)` from both notebooks: `sum(numbers) / len(numbers)`
on the JSON-decoded list.  The `if` branch is exactly the condition under
which Python's division raises `ZeroDivisionError`. -/
def average_func (numbers : List ℚ) : Except PipelineError ℚ :=
  if numbers.length = 0 then .error .emptyInput
  else .ok (numbers.sum / (numbers.length : ℚ))

/-- The record produced by `sample_func`: `{'x': x, 'y': y, 'result': result,
'seed': seed}` in the lightweight notebook, the `NamedTuple` with fields
`x, y, result, seed` in the reusable notebook. -/
structure SampleResult where
  x : ℚ
  y : ℚ
  result : Int
  seed : Int
deriving DecidableEq

/-- The sampling core shared by `sample_func` in both notebooks.  `r1` and
`r2` are the two `random.random()` draws (the PRNG is external state seeded
from `seed`); the code computes `x = random.random() * 2 - 1`,
`y = random.random() * 2 - 1` and sets `result = 4` when `x**2 + y**2 <= 1`,
else `result = 0`. -/
def sample_func (seed : Int) (r1 r2 : ℚ) : SampleResult :=
  let x := r1 * 2 - 1
  let y := r2 * 2 - 1
  let result : Int := if x ^ 2 + y ^ 2 ≤ 1 then 4 else 0
  { x := x, y := y, result := result, seed := seed }

/-- `collect_results_as_list` (lightweight notebook), after
`minio_find_files_matching_pattern` has produced `obj_names`: for each object
name, in order, `fget_object` then `float(fin.read())`.  `fetch` abstracts the
MinIO download (`none` = the client raises), `parse` abstracts `float(...)`
(`none` = `ValueError`); the first exception aborts the whole call, which is
the `.error` short-circuit below. -/
def collect_results_as_list (fetch : String → Option String)
    (parse : String → Option ℚ) (obj_names : List String) :
    Except PipelineError (List ℚ) :=
  match obj_names with
  | [] => .ok []
  | name :: rest =>
    match fetch name with
    | none => .error (.aggregationFailure name)
    | some contents =>
      match parse contents with
      | none => .error (.aggregationFailure name)
      | some v =>
        match collect_results_as_list fetch parse rest with
        | .error e => .error e
        | .ok vs => .ok (v :: vs)

/-- Python's `str.rstrip(chr(47))` as used on output locations: drop every
trailing slash. -/
def rstripSlashes (s : String) : String :=
  String.mk ((s.data.reverse.dropWhile (fun c => c = '/')).reverse)

/-- Both pipelines' `this_run_output_location`:
the output location with trailing slashes stripped, then the KFP run id
appended after a slash. -/
def this_run_output_location (output_location run_id : String) : String :=
  rstripSlashes output_location ++ "/" ++ run_id

/-- Both pipelines' `sample_output_location = this_run_output_location + "/seeds"`. -/
def sample_output_location (output_location run_id : String) : String :=
  this_run_output_location output_location run_id ++ "/seeds"

/-- The destination built inside the lightweight `sample_func` for one output
variable: `minio_output_path.rstrip(chr(47)) + "/seed_" + seed + "/" + varname + ".out"`. -/
def lightweight_destination (minio_output_path : String) (seed : Int)
    (varname : String) : String :=
  rstripSlashes minio_output_path ++ "/seed_" ++ toString seed ++ "/" ++ varname ++ ".out"

/-- The storage key of one seed's `result.out` file in the lightweight
pipeline: `sample_func` is called with `minio_output_path =
sample_output_location`. -/
def lightweight_result_key (output_location run_id : String) (seed : Int) : String :=
  lightweight_destination (sample_output_location output_location run_id) seed "result"

/-- Every storage key the lightweight pipeline writes for a run: `sample_func`
writes `x.out`, `y.out`, `result.out`, `seed.out` (its `to_output` dict, in
insertion order) for each seed, and the pipeline never copies the final
average anywhere. -/
def lightweight_run_destinations (output_location run_id : String)
    (seeds : List Int) : List String :=
  seeds.flatMap (fun s =>
    ["x", "y", "result", "seed"].map
      (lightweight_destination (sample_output_location output_location run_id) s))

/-- The per-seed copy destination of the reusable pipeline:
`f-string sample_output_location ++ seed ++ "/result.out"` — note the source
concatenates the seed directly after `sample_output_location` with no
separating slash. -/
def reusable_seed_result_key (output_location run_id : String) (seed : Int) : String :=
  sample_output_location output_location run_id ++ toString seed ++ "/result.out"

/-- The final-average copy destination of the reusable pipeline:
`this_run_output_location + "/result.out"`. -/
def reusable_final_result_key (output_location run_id : String) : String :=
  this_run_output_location output_location run_id ++ "/result.out"

/-- Modelled from the spec: the per-seed key layout the spec asserts,
`<run-prefix>/<run-id>/seeds/<task-id>/result.out`, for comparison with the
key-building expressions of the source. -/
def spec_seed_result_key (pfx run_id : String) (seed : Int) : String :=
  pfx ++ "/" ++ run_id ++ "/seeds/" ++ toString seed ++ "/result.out"

/-- One key "fails" for `collect_results_as_list` when the store fetch raises
or the fetched text does not parse as a float. -/
def keyFails (fetch : String → Option String) (parse : String → Option ℚ)
    (name : String) : Prop :=
  fetch name = none ∨ ∃ c, fetch name = some c ∧ parse c = none

/-- Regular-expression abstract syntax, covering exactly the constructs the
two search patterns of the pipelines use: literal characters, `.` (any
character), the `^` anchor, alternation, concatenation and Kleene star. -/
inductive Re where
  | eps : Re
  | char : Char → Re
  | dot : Re
  | bol : Re
  | alt : Re → Re → Re
  | seq : Re → Re → Re
  | star : Re → Re

/-- Size of a regex, used to bound the matcher's fuel. -/
def reSize : Re → Nat
  | .eps => 1
  | .char _ => 1
  | .dot => 1
  | .bol => 1
  | .alt a b => reSize a + reSize b + 1
  | .seq a b => reSize a + reSize b + 1
  | .star a => reSize a + 1

/-- All end positions of matches of `r` that start at position `i` of `s`.
`bol` matches the empty string at position 0 only; `star` unrolls only on
strict progress, with `fuel` bounding the recursion (every call site passes
one less, and `reSearch` supplies more fuel than the longest possible chain
of constructor descents and star unrolls). -/
def matchEnds (fuel : Nat) (r : Re) (s : List Char) (i : Nat) : List Nat :=
  match fuel with
  | 0 => []
  | fuel + 1 =>
    match r with
    | .eps => [i]
    | .char c =>
      match s.drop i with
      | [] => []
      | d :: _ => if d = c then [i + 1] else []
    | .dot =>
      match s.drop i with
      | [] => []
      | _ :: _ => [i + 1]
    | .bol => if i = 0 then [0] else []
    | .alt a b => matchEnds fuel a s i ++ matchEnds fuel b s i
    | .seq a b => (matchEnds fuel a s i).flatMap (fun j => matchEnds fuel b s j)
    | .star a =>
      i :: (matchEnds fuel a s i).flatMap (fun j =>
        if i < j then matchEnds fuel (.star a) s j else [])

/-- Unanchored regex search over a storage-key string (the semantics the spec
ascribes to both the `minio_find_files_matching_pattern` helper and
`mc find --regex`, neither of which is in the repository): the pattern may
match starting at any position. -/
def reSearch (r : Re) (s : String) : Bool :=
  (List.range (s.data.length + 1)).any (fun i =>
    !(matchEnds ((reSize r + 1) * (s.data.length + 2)) r s.data i).isEmpty)

/-- A regex matching a literal string. -/
def reLit (s : String) : Re :=
  s.data.foldr (fun c acc => Re.seq (Re.char c) acc) Re.eps

/-- The lightweight pipeline's `search_pattern = r".*(^|/)result.out"`
(the `.` before `out` is the regex any-character). -/
def lightweight_search_pattern : Re :=
  Re.seq (Re.star Re.dot)
    (Re.seq (Re.alt Re.bol (Re.char '/'))
      (Re.seq (reLit "result") (Re.seq Re.dot (reLit "out"))))

/-- The reusable pipeline's `search_pattern = r"/result.out"`
(the `.` before `out` is the regex any-character). -/
def reusable_search_pattern : Re :=
  Re.seq (Re.char '/') (Re.seq (reLit "result") (Re.seq Re.dot (reLit "out")))

/-- A two-object store for concrete runs of `collect_results_as_list`: keys
`"a"` and `"b"` hold the texts of one in-circle and one out-of-circle sample. -/
def demoStore : String → Option String :=
  fun k => if k = "a" then some "4" else if k = "b" then some "0" else none

/-- A store where key `"b"` fails to fetch. -/
def demoStoreMissing : String → Option String :=
  fun k => if k = "a" then some "4" else none

/-- A concrete float parser for the demo stores. -/
def demoParse : String → Option ℚ :=
  fun c => if c = "4" then some 4 else if c = "0" then some 0 else none

-- ### Theorems

/-- `average_func` really divides by the length. -/
theorem average_func_ok (l : List ℚ) (h : l ≠ []) :
    average_func l = .ok (l.sum / (l.length : ℚ)) := by
  have : l.length ≠ 0 := by
    simpa using List.length_pos.mpr h |>.ne.symm
  simp [average_func, this]

/-- C3: `average_func` applied to the empty sequence of values fails with the
error `EmptyInput` (the guard of the embedded function is exactly the
condition under which the source's `sum/len` raises `ZeroDivisionError`). -/
theorem C3_average_empty_fails :
    average_func [] = .error PipelineError.emptyInput := rfl

/-- C2 counterexample: `create_seeds_func` does not fail for `n ≤ 0` — it is a
total function that silently returns the empty list, both at `0` and at a
negative argument. -/
theorem C2_counterexample :
    create_seeds_func 0 = [] ∧ create_seeds_func (-5) = [] := ⟨rfl, rfl⟩

/-- C2 amended: for every `n ≤ 0`, `create_seeds_func n` returns the empty
list (no `InvalidArgument` failure exists in the code). -/
theorem C2_seeds_nonpositive_empty (n : Int) (h : n ≤ 0) :
    create_seeds_func n = [] := by
  simp [create_seeds_func, Int.toNat_of_nonpos h]

/-- Witness for C2: the amended theorem applied at `n = -3`. -/
theorem C2_witness : (-3 : Int) ≤ 0 ∧ create_seeds_func (-3) = [] :=
  ⟨by decide, C2_seeds_nonpositive_empty (-3) (by decide)⟩

/-- C5: for every `n > 0`, `create_seeds_func n` returns an ordered sequence
of exactly `n` pairwise-distinct values.  Determinism across repeated calls is
definitional: the embedding is a pure function of `n` alone, matching the
source, whose output depends only on `n_samples`. -/
theorem C5_seeds_distinct (n : Int) (h : 0 < n) :
    ((create_seeds_func n).length : Int) = n ∧ (create_seeds_func n).Nodup := by
  constructor
  · simp only [create_seeds_func, List.length_map, List.length_range]
    omega
  · exact List.Nodup.map (fun a b hab => by omega) (List.nodup_range _)

/-- Witness for C5: the theorem applied at `n = 4`. -/
theorem C5_witness :
    (0 : Int) < 4 ∧
      (((create_seeds_func 4).length : Int) = 4 ∧ (create_seeds_func 4).Nodup) :=
  ⟨by decide, C5_seeds_distinct 4 (by decide)⟩

/-- C6: on every non-empty list `average_func` returns the arithmetic mean,
and on `[4, 0, 4, 0]` it returns `2`. -/
theorem C6_average_is_mean :
    (∀ l : List ℚ, l ≠ [] → average_func l = .ok (l.sum / (l.length : ℚ))) ∧
    average_func [4, 0, 4, 0] = .ok 2 := by
  refine ⟨fun l h => average_func_ok l h, ?_⟩
  have h4 := average_func_ok [4, 0, 4, 0] (by simp)
  rw [h4]
  norm_num

/-- Witness for C6: the universally quantified part of the theorem applied at
the non-empty list `[1, 2, 3]`. -/
theorem C6_witness : ([1, 2, 3] : List ℚ) ≠ [] ∧ average_func [1, 2, 3] = .ok 2 := by
  refine ⟨by simp, ?_⟩
  rw [C6_average_is_mean.1 [1, 2, 3] (by simp)]
  norm_num

/-- C7: for every seed and every pair of PRNG draws, the `result` field of the
sample is `4` exactly when the sampled point satisfies `x² + y² ≤ 1`, and it
is always either `4` or `0`. -/
theorem C7_hit_indicator (seed : Int) (r1 r2 : ℚ) :
    ((sample_func seed r1 r2).result = 4 ↔
      (sample_func seed r1 r2).x ^ 2 + (sample_func seed r1 r2).y ^ 2 ≤ 1) ∧
    ((sample_func seed r1 r2).result = 4 ∨ (sample_func seed r1 r2).result = 0) := by
  by_cases h : (r1 * 2 - 1) ^ 2 + (r2 * 2 - 1) ^ 2 ≤ 1 <;>
    simp [sample_func, h]

/-- Stripping trailing slashes is the identity on a string whose last
character is not a slash. -/
theorem rstripSlashes_eq_self (s : String) (h : s.data.reverse.head? ≠ some '/') :
    rstripSlashes s = s := by
  have hd : s.data.reverse.dropWhile (fun c => c = '/') = s.data.reverse := by
    cases hr : s.data.reverse with
    | nil => rfl
    | cons c t =>
      have hc : c ≠ '/' := by rw [hr] at h; simpa using h
      simp [List.dropWhile_cons, hc]
  unfold rstripSlashes
  rw [hd, List.reverse_reverse]

/-- Stripping trailing slashes is the identity on `s ++ t` when the suffix `t`
ends in a non-slash character. -/
theorem rstripSlashes_append (s t : String) (c : Char) (r : List Char)
    (ht : t.data.reverse = c :: r) (hc : c ≠ '/') :
    rstripSlashes (s ++ t) = s ++ t := by
  apply rstripSlashes_eq_self
  rw [String.data_append, List.reverse_append, ht]
  simp [hc]

/-- Appending `"/seeds"` leaves nothing for the later `rstrip` to remove. -/
theorem rstripSlashes_append_seeds (s : String) :
    rstripSlashes (s ++ "/seeds") = s ++ "/seeds" :=
  rstripSlashes_append s "/seeds" 's' ['d', 'e', 'e', 's', '/'] rfl (by decide)

/-- C1 counterexample: at output location `"p"`, run id `"r"` and seed `10`,
neither pipeline variant produces the layout
`<run-prefix>/<run-id>/seeds/<task-id>/result.out` that the claim asserts.
The reusable variant concatenates the seed with no separating slash
(`p/r/seeds10/result.out`), the lightweight variant inserts a `seed_` path
segment (`p/r/seeds/seed_10/result.out`), and the lightweight run writes
nothing at the final key `p/r/result.out` (its write set is the four per-seed
files only). -/
theorem C1_counterexample :
    reusable_seed_result_key "p" "r" 10 = "p/r/seeds10/result.out" ∧
    spec_seed_result_key "p" "r" 10 = "p/r/seeds/10/result.out" ∧
    reusable_seed_result_key "p" "r" 10 ≠ spec_seed_result_key "p" "r" 10 ∧
    lightweight_result_key "p" "r" 10 = "p/r/seeds/seed_10/result.out" ∧
    lightweight_result_key "p" "r" 10 ≠ spec_seed_result_key "p" "r" 10 ∧
    spec_seed_result_key "p" "r" 10 ∉ lightweight_run_destinations "p" "r" [10] ∧
    "p/r/result.out" ∉ lightweight_run_destinations "p" "r" [10] := by
  refine ⟨rfl, rfl, by decide, rfl, by decide, by decide, by decide⟩

/-- C1 amended: for every output location without a trailing slash, every run
id and every seed, the lightweight variant persists the per-seed result at
`<prefix>/<run-id>/seeds/seed_<task-id>/result.out` (and persists no final
average), while the reusable variant persists the per-seed result at
`<prefix>/<run-id>/seeds<task-id>/result.out` — no slash between `seeds` and
the task id — and the final average at `<prefix>/<run-id>/result.out`. -/
theorem C1_amended_keys (loc rid : String) (seed : Int)
    (h : loc.data.reverse.head? ≠ some '/') :
    lightweight_result_key loc rid seed =
      loc ++ "/" ++ rid ++ "/seeds/seed_" ++ toString seed ++ "/result.out" ∧
    reusable_seed_result_key loc rid seed =
      loc ++ "/" ++ rid ++ "/seeds" ++ toString seed ++ "/result.out" ∧
    reusable_final_result_key loc rid =
      loc ++ "/" ++ rid ++ "/result.out" := by
  refine ⟨?_, ?_, ?_⟩
  · apply String.ext
    simp only [lightweight_result_key, lightweight_destination,
      sample_output_location, this_run_output_location]
    rw [rstripSlashes_append_seeds, rstripSlashes_eq_self loc h]
    simp only [String.data_append, List.append_assoc, List.cons_append,
      List.nil_append]
  · apply String.ext
    simp only [reusable_seed_result_key, sample_output_location,
      this_run_output_location]
    rw [rstripSlashes_eq_self loc h]
  · apply String.ext
    simp only [reusable_final_result_key, this_run_output_location]
    rw [rstripSlashes_eq_self loc h]

/-- Witness for C1's amended theorem: applied at `loc = "p"`, `rid = "r"`,
seed `10`. -/
theorem C1_amended_witness :
    (("p" : String).data.reverse.head? ≠ some '/') ∧
    lightweight_result_key "p" "r" 10 = "p/r/seeds/seed_10/result.out" ∧
    reusable_seed_result_key "p" "r" 10 = "p/r/seeds10/result.out" ∧
    reusable_final_result_key "p" "r" = "p/r/result.out" := by
  obtain ⟨h1, h2, h3⟩ := C1_amended_keys "p" "r" 10 (by decide)
  exact ⟨by decide, by rw [h1]; rfl, by rw [h2]; rfl, by rw [h3]; rfl⟩

/-- C10: `create_seeds_func n` is the sequence of consecutive integers
starting at the constant `10` (element `i` is `10 + i`); for `n ≤ m` the
sequence for `n` is a prefix of the one for `m`; and any two runs with
positive counts share a task id (namely `10`), so task ids are reused across
distinct runs. -/
theorem C10_seeds_structure :
    (∀ (n : Int) (i : Nat), i < (create_seeds_func n).length →
        (create_seeds_func n)[i]? = some (10 + (i : Int))) ∧
    (∀ n m : Int, n ≤ m → ∃ t, create_seeds_func m = create_seeds_func n ++ t) ∧
    (∀ n m : Int, 0 < n → 0 < m →
        ∃ s, s ∈ create_seeds_func n ∧ s ∈ create_seeds_func m) := by
  refine ⟨?_, ?_, ?_⟩
  · intro n i h
    have hi : i < n.toNat := by
      simpa [create_seeds_func] using h
    simp [create_seeds_func, List.getElem?_map, List.getElem?_range hi]
  · intro n m hnm
    have h1 : n.toNat ≤ m.toNat := Int.toNat_le_toNat hnm
    refine ⟨((List.range m.toNat).drop n.toNat).map (fun i : Nat => 10 + (i : Int)), ?_⟩
    have hsplit : List.range m.toNat =
        List.range n.toNat ++ (List.range m.toNat).drop n.toNat := by
      conv_lhs => rw [← List.take_append_drop n.toNat (List.range m.toNat)]
      rw [List.take_range, min_eq_left h1]
    rw [create_seeds_func, create_seeds_func]
    conv_lhs => rw [hsplit]
    rw [List.map_append]
  · intro n m hn hm
    have hmem : ∀ k : Int, 0 < k → (10 : Int) ∈ create_seeds_func k := by
      intro k hk
      simp only [create_seeds_func, List.mem_map, List.mem_range]
      exact ⟨0, by omega, by norm_num⟩
    exact ⟨10, hmem n hn, hmem m hm⟩

/-- Witness for C10: the three parts applied at concrete counts. -/
theorem C10_witness :
    (0 < (create_seeds_func 1).length ∧ (create_seeds_func 1)[0]? = some 10) ∧
    ((2 : Int) ≤ 3 ∧ ∃ t, create_seeds_func 3 = create_seeds_func 2 ++ t) ∧
    ((0 : Int) < 2 ∧ (0 : Int) < 5 ∧
      ∃ s, s ∈ create_seeds_func 2 ∧ s ∈ create_seeds_func 5) := by
  refine ⟨⟨by decide, ?_⟩, ⟨by decide, ?_⟩, by decide, by decide, ?_⟩
  · have := C10_seeds_structure.1 1 0 (by decide)
    simpa using this
  · exact C10_seeds_structure.2.1 2 3 (by decide)
  · exact C10_seeds_structure.2.2 2 5 (by decide) (by decide)

/-- C8: `collect_results_as_list` is all-or-nothing.  If any located key fails
to fetch or parse, the whole call returns an `AggregationFailure` error (no
partial list); and it returns a list only if every key fetched and parsed
successfully. -/
theorem C8_gather_all_or_nothing (fetch : String → Option String)
    (parse : String → Option ℚ) (names : List String) :
    ((∃ name ∈ names, keyFails fetch parse name) →
        ∃ k, collect_results_as_list fetch parse names =
          .error (PipelineError.aggregationFailure k)) ∧
    (∀ l, collect_results_as_list fetch parse names = .ok l →
        ∀ name ∈ names, ¬ keyFails fetch parse name) := by
  induction names with
  | nil =>
    constructor
    · rintro ⟨name, hmem, -⟩
      simp at hmem
    · intro l _ name hmem
      simp at hmem
  | cons a rest ih =>
    constructor
    · rintro ⟨name, hmem, hfail⟩
      cases hfa : fetch a with
      | none => exact ⟨a, by simp [collect_results_as_list, hfa]⟩
      | some c =>
        cases hpa : parse c with
        | none => exact ⟨a, by simp [collect_results_as_list, hfa, hpa]⟩
        | some v =>
          have hna : ¬ keyFails fetch parse a := by
            rintro (h1 | ⟨c2, hc2, hp2⟩)
            · rw [hfa] at h1; exact Option.noConfusion h1
            · rw [hfa] at hc2
              injection hc2 with e
              subst e
              rw [hpa] at hp2
              exact Option.noConfusion hp2
          have hmem2 : name ∈ rest := by
            rcases List.mem_cons.mp hmem with h | h
            · subst h; exact absurd hfail hna
            · exact h
          obtain ⟨k, hk⟩ := ih.1 ⟨name, hmem2, hfail⟩
          exact ⟨k, by simp [collect_results_as_list, hfa, hpa, hk]⟩
    · intro l hl name hmem
      cases hfa : fetch a with
      | none => simp [collect_results_as_list, hfa] at hl
      | some c =>
        cases hpa : parse c with
        | none => simp [collect_results_as_list, hfa, hpa] at hl
        | some v =>
          cases hrest : collect_results_as_list fetch parse rest with
          | error e => simp [collect_results_as_list, hfa, hpa, hrest] at hl
          | ok vs =>
            rcases List.mem_cons.mp hmem with h | h
            · subst h
              rintro (h1 | ⟨c2, hc2, hp2⟩)
              · rw [hfa] at h1; exact Option.noConfusion h1
              · rw [hfa] at hc2
                injection hc2 with e
                subst e
                rw [hpa] at hp2
                exact Option.noConfusion hp2
            · exact ih.2 vs hrest name h

/-- Witness for C8: with a store where key `"b"` is missing, the failure
branch of the theorem yields an `AggregationFailure` for the whole call. -/
theorem C8_witness :
    (∃ name ∈ ["a", "b"], keyFails demoStoreMissing demoParse name) ∧
    ∃ k, collect_results_as_list demoStoreMissing demoParse ["a", "b"] =
      .error (PipelineError.aggregationFailure k) := by
  have hex : ∃ name ∈ ["a", "b"], keyFails demoStoreMissing demoParse name :=
    ⟨"b", by simp, Or.inl rfl⟩
  exact ⟨hex, (C8_gather_all_or_nothing demoStoreMissing demoParse ["a", "b"]).1 hex⟩

/-- C9: on success `collect_results_as_list` returns exactly one parsed value
per located object name, in the finder's order: the result has the same
length as the name list, and the `i`-th element is the parsed content of the
`i`-th name. -/
theorem C9_gather_ordered (fetch : String → Option String)
    (parse : String → Option ℚ) (names : List String) (l : List ℚ)
    (h : collect_results_as_list fetch parse names = .ok l) :
    l.length = names.length ∧
    ∀ i : Nat, i < names.length →
      ∃ name c v, names[i]? = some name ∧ l[i]? = some v ∧
        fetch name = some c ∧ parse c = some v := by
  induction names generalizing l with
  | nil =>
    have hl : l = [] := by
      simpa [collect_results_as_list] using h.symm
    subst hl
    exact ⟨rfl, fun i hi => absurd hi (by simp)⟩
  | cons a rest ih =>
    cases hfa : fetch a with
    | none => simp [collect_results_as_list, hfa] at h
    | some c =>
      cases hpa : parse c with
      | none => simp [collect_results_as_list, hfa, hpa] at h
      | some v =>
        cases hrest : collect_results_as_list fetch parse rest with
        | error e => simp [collect_results_as_list, hfa, hpa, hrest] at h
        | ok vs =>
          have hstep : collect_results_as_list fetch parse (a :: rest) = .ok (v :: vs) := by
            simp [collect_results_as_list, hfa, hpa, hrest]
          have hl : l = v :: vs := by
            rw [hstep] at h
            injection h with e
            exact e.symm
          subst hl
          obtain ⟨hlen, helem⟩ := ih vs hrest
          refine ⟨by simp [hlen], ?_⟩
          intro i hi
          cases i with
          | zero =>
            exact ⟨a, c, v, List.getElem?_cons_zero, List.getElem?_cons_zero, hfa, hpa⟩
          | succ j =>
            have hj : j < rest.length := by simpa using hi
            obtain ⟨name, c2, v2, h1, h2, h3, h4⟩ := helem j hj
            exact ⟨name, c2, v2, by simpa using h1, by simpa using h2, h3, h4⟩

/-- Witness for C9: a successful two-key gather, with the theorem's
conclusions instantiated at index `0`. -/
theorem C9_witness :
    ([(4 : ℚ), 0].length = (["a", "b"] : List String).length) ∧
    (∃ name c v, (["a", "b"] : List String)[0]? = some name ∧
      [(4 : ℚ), 0][0]? = some v ∧ demoStore name = some c ∧ demoParse c = some v) := by
  have hcoll : collect_results_as_list demoStore demoParse ["a", "b"] = .ok [4, 0] := rfl
  obtain ⟨h1, h2⟩ := C9_gather_ordered demoStore demoParse ["a", "b"] [4, 0] hcoll
  exact ⟨h1, h2 0 (by decide)⟩

/-- C4 counterexample: the reusable variant's pattern `/result.out`,
interpreted as an unanchored regex over storage-key strings, does not match
the bare key `result.out` (there is no slash before `result.out`), contrary
to the claim that both variants' patterns match it. -/
theorem C4_counterexample :
    reSearch reusable_search_pattern "result.out" = false := rfl

/-- C4 amended: interpreted as unanchored regexes over storage-key strings,
both patterns match `a/b/result.out` and neither matches `not_a_result.out`;
the lightweight pattern `.*(^|/)result.out` also matches the bare key
`result.out`, while the reusable pattern `/result.out` does not. -/
theorem C4_amended_patterns :
    reSearch lightweight_search_pattern "a/b/result.out" = true ∧
    reSearch lightweight_search_pattern "result.out" = true ∧
    reSearch lightweight_search_pattern "not_a_result.out" = false ∧
    reSearch reusable_search_pattern "a/b/result.out" = true ∧
    reSearch reusable_search_pattern "not_a_result.out" = false ∧
    reSearch reusable_search_pattern "result.out" = false :=
  ⟨rfl, rfl, rfl, rfl, rfl, rfl⟩
